import Mathlib

/-!
Verification development for the otelchi HTTP tracing middleware.

The repository ships the metric sub-package (request in-flight recorder) as
source; the tracing middleware itself is only visible through its tests and
the specification, so those parts are modelled from the spec, faithful to its
words, and exercised on the concrete scenarios the tests pin down.
-/

namespace Otelchi

/-- A span context: trace identifier, span identifier, sampled flag and the
remote marker, as carried by incoming propagation headers. -/
structure SpanContext where
  traceID : Nat
  spanID : Nat
  sampled : Bool
  remote : Bool
deriving DecidableEq

/-- A span context is valid when both identifiers are non-zero. -/
def isValid (c : SpanContext) : Bool :=
  c.traceID != 0 && c.spanID != 0

/-- An inbound HTTP request: method, raw path, and the remote span context
extracted from its propagation headers (none when absent or unparsable). -/
structure Request where
  method : String
  path : String
  remoteCtx : Option SpanContext
deriving DecidableEq

/-- Interactions of a handler with the response writer, in order: an explicit
status write, a body write of some byte count, or hijacking the connection. -/
inductive WriterEvent where
  | writeHeader (code : Nat)
  | write (bytes : Nat)
  | hijack
deriving DecidableEq

/-- What a handler does during one request: its writer interactions in order,
plus an optional explicit span rename performed before returning. -/
structure HandlerAction where
  events : List WriterEvent
  rename : Option String
deriving DecidableEq

/-- Modelled from the spec: the ResponseObserver state of the recording
response writer (middleware source absent from the repository snapshot).
It tracks whether a first write happened, the status recorded at that first
write (defaulting to 200), and whether the connection was hijacked away from
the framework writer. -/
structure RRWState where
  written : Bool
  status : Nat
  hijacked : Bool
deriving DecidableEq

/-- Initial observer state: nothing written, default status 200. -/
def initRRW : RRWState :=
  { written := false, status := 200, hijacked := false }

/-- Modelled from the spec: one observer transition per writer interaction.
The first explicit status write fixes the observed status; a body write
before any explicit status leaves the 200 default in place; later writes
never change the recorded status; hijacking marks the response as taken
over outside the framework writer. -/
def stepRRW (s : RRWState) (e : WriterEvent) : RRWState :=
  match e with
  | .writeHeader code =>
      if s.written then s else { s with written := true, status := code }
  | .write _ =>
      if s.written then s else { s with written := true }
  | .hijack => { s with hijacked := true }

/-- Observer state after a handler's writer interactions. -/
def observeEvents (es : List WriterEvent) : RRWState :=
  es.foldl stepRRW initRRW

/-- Modelled from the spec: the status the span records, if any. When the
connection was hijacked and nothing was written through the framework writer,
no response was produced there and the status is omitted; otherwise the
observed status (default 200) applies, matching the empty-handler and
websocket test expectations. -/
def observedStatus (s : RRWState) : Option Nat :=
  if s.hijacked && !s.written then none else some s.status

/-- True when the event list contains an explicit status or body write. -/
def hasWriteEvent (es : List WriterEvent) : Bool :=
  es.any fun e =>
    match e with
    | .writeHeader _ => true
    | .write _ => true
    | .hijack => false

/-- True when the event list contains a connection hijack. -/
def hasHijack (es : List WriterEvent) : Bool :=
  es.any fun e =>
    match e with
    | .hijack => true
    | _ => false

/-- A request-tracing filter predicate. -/
def Filter : Type := Request → Bool

/-- Modelled from the spec: the FilterChain decision, evaluated as logical AND
over the registered filters in registration order, short-circuiting on the
first false; the empty chain traces everything. -/
def shouldTrace : List Filter → Request → Bool
  | [], _ => true
  | f :: fs, r => if f r then shouldTrace fs r else false

/-- Modelled from the spec: the public-endpoint handling mode. -/
inductive PublicEndpointMode where
  | off
  | always
  | conditional (p : Request → Bool)

/-- Whether public-endpoint handling applies to this request: never when off,
always when always, per the predicate when conditional. -/
def resolvePublic (m : PublicEndpointMode) (r : Request) : Bool :=
  match m with
  | .off => false
  | .always => true
  | .conditional p => p r

/-- Default response header name for the trace identifier. -/
def defaultTraceIDHeaderName : String := "X-Trace-ID"

/-- Default response header name for the sampled flag. -/
def defaultSampledHeaderName : String := "X-Trace-Sampled"

/-- Modelled from the spec: the header-name pair accepted by
WithTraceResponseHeaders; empty fields fall back to the defaults. -/
structure TraceHeaderConfig where
  traceIDHeader : String
  traceSampledHeader : String
deriving DecidableEq

/-- Modelled from the spec: the immutable middleware configuration built once
at construction. -/
structure Config where
  serverName : String
  filters : List Filter
  routes : List (String × String)
  methodInSpanName : Bool
  injectHeaders : Bool
  traceIDHeader : String
  sampledHeader : String
  publicMode : PublicEndpointMode

/-- The configuration the middleware starts from before options are applied. -/
def defaultConfig (serverName : String) : Config :=
  { serverName := serverName
    filters := []
    routes := []
    methodInSpanName := false
    injectHeaders := false
    traceIDHeader := defaultTraceIDHeaderName
    sampledHeader := defaultSampledHeaderName
    publicMode := .off }

/-- Option: append a predicate to the FilterChain. -/
def WithFilter (f : Filter) (c : Config) : Config :=
  { c with filters := c.filters ++ [f] }

/-- Option: record the route table for eager resolution. -/
def WithChiRoutes (table : List (String × String)) (c : Config) : Config :=
  { c with routes := table }

/-- Option: toggle the method prefix in the span name. -/
def WithRequestMethodInSpanName (b : Bool) (c : Config) : Config :=
  { c with methodInSpanName := b }

/-- Option: enable header injection and set a custom trace-id header name via
a name-producing function; a missing function keeps the default name. The
sampled header name is left untouched. -/
def WithTraceIDResponseHeader (fn : Option (Unit → String)) (c : Config) : Config :=
  { c with
    injectHeaders := true
    traceIDHeader :=
      match fn with
      | some f => f ()
      | none => defaultTraceIDHeaderName }

/-- Option: enable header injection and set both header names from a config
struct, empty fields falling back to the defaults. -/
def WithTraceResponseHeaders (tc : TraceHeaderConfig) (c : Config) : Config :=
  { c with
    injectHeaders := true
    traceIDHeader :=
      if tc.traceIDHeader = "" then defaultTraceIDHeaderName else tc.traceIDHeader
    sampledHeader :=
      if tc.traceSampledHeader = "" then defaultSampledHeaderName
      else tc.traceSampledHeader }

/-- Option: set publicEndpointMode to always. -/
def WithPublicEndpoint (c : Config) : Config :=
  { c with publicMode := .always }

/-- Option: set publicEndpointMode to conditional with the given predicate. -/
def WithPublicEndpointFn (p : Request → Bool) (c : Config) : Config :=
  { c with publicMode := .conditional p }

/-- Apply a list of options, in order, to a configuration. -/
def applyOptions (opts : List (Config → Config)) (c : Config) : Config :=
  opts.foldl (fun cfg o => o cfg) c

/-- Middleware construction: the named options applied, in order, to the
default configuration for a server name. -/
def Middleware (serverName : String) (opts : List (Config → Config)) : Config :=
  applyOptions opts (defaultConfig serverName)

/-- Modelled from the spec: the RouteResolver result, defaulting to the
literal request path when no route registration matches. -/
def resolvePattern (routes : List (String × String)) (path : String) : String :=
  match routes.lookup path with
  | some p => p
  | none => path

/-- Span attribute values: strings or integers. -/
inductive AttrValue where
  | str (s : String)
  | int (n : Nat)
deriving DecidableEq

/-- Span kinds; this middleware only ever starts server spans. -/
inductive SpanKind where
  | server
  | client
  | internal
deriving DecidableEq

/-- A recorded (ended) span as seen by the span recorder. -/
structure Span where
  name : String
  kind : SpanKind
  traceID : Nat
  sampled : Bool
  links : List SpanContext
  attrs : List (String × AttrValue)
deriving DecidableEq

/-- Lowercase hexadecimal digit character for a value below sixteen. -/
def hexDigitChar (n : Nat) : Char :=
  if n < 10 then Char.ofNat (48 + n) else Char.ofNat (87 + n)

/-- Fixed-width big-endian lowercase hexadecimal rendering of a number. -/
def hexChars : Nat → Nat → List Char
  | 0, _ => []
  | w + 1, n => hexChars w (n / 16) ++ [hexDigitChar (n % 16)]

/-- A sixteen-byte trace identifier rendered as 32 lowercase hex characters. -/
def renderTraceID (t : Nat) : String :=
  String.mk (hexChars 32 t)

/-- A character is a lowercase hexadecimal digit: 0-9 or a-f. -/
def isLowerHexDigit (c : Char) : Bool :=
  (48 ≤ c.toNat && c.toNat ≤ 57) || (97 ≤ c.toNat && c.toNat ≤ 102)

/-- Modelled from the spec: parent/link resolution for the new span. With a
valid remote context, public-endpoint handling starts a fresh root carrying
the remote context as a single link; otherwise the remote context is adopted
as the direct parent (same trace identifier, no links). Without a valid
remote context a fresh root with no links is started. -/
def parentDecision (m : PublicEndpointMode) (req : Request) (fresh : Nat) :
    Nat × List SpanContext :=
  match req.remoteCtx with
  | some rc =>
      if isValid rc then
        if resolvePublic m req then (fresh, [rc]) else (rc.traceID, [])
      else (fresh, [])
  | none => (fresh, [])

/-- Modelled from the spec: the sampled flag of the new span context — the
remote flag when the remote context is adopted as parent, the root sampling
decision otherwise. -/
def sampledDecision (m : PublicEndpointMode) (req : Request) (rootSampled : Bool) :
    Bool :=
  match req.remoteCtx with
  | some rc =>
      if isValid rc && !(resolvePublic m req) then rc.sampled else rootSampled
  | none => rootSampled

/-- Everything one request through the middleware produces: the spans recorded
at end (at most one), the count of spans started, the injected response
headers, whether the wrapped handler ran, and the writer interactions passed
through to the underlying response writer. -/
structure MwResult where
  spans : List Span
  startedSpans : Nat
  headers : List (String × String)
  handlerRan : Bool
  responseEvents : List WriterEvent
deriving DecidableEq

/-- Modelled from the spec: the span name at end — the handler's explicit
rename when present, else the resolved route pattern with the optional method
prefixing per configuration. -/
def finalSpanName (cfg : Config) (req : Request) (act : HandlerAction) : String :=
  match act.rename with
  | some n => n
  | none =>
      if cfg.methodInSpanName then
        req.method ++ " " ++ resolvePattern cfg.routes req.path
      else resolvePattern cfg.routes req.path

/-- Modelled from the spec: the semantic attributes attached before span end;
the status code attribute is present exactly when the observer saw a response
produced through the framework writer. -/
def finalAttrs (cfg : Config) (req : Request) (act : HandlerAction) :
    List (String × AttrValue) :=
  let baseAttrs :=
    [("net.host.name", AttrValue.str cfg.serverName),
     ("http.method", AttrValue.str req.method),
     ("http.route", AttrValue.str (resolvePattern cfg.routes req.path))]
  match observedStatus (observeEvents act.events) with
  | some st => baseAttrs ++ [("http.status_code", AttrValue.int st)]
  | none => baseAttrs

/-- Modelled from the spec: the single server span recorded for a traced
request, assembled from the naming, parenting and attribute rules. -/
def tracedSpan (cfg : Config) (fresh : Nat) (rootSampled : Bool)
    (act : HandlerAction) (req : Request) : Span :=
  { name := finalSpanName cfg req act
    kind := .server
    traceID := (parentDecision cfg.publicMode req fresh).1
    sampled := sampledDecision cfg.publicMode req rootSampled
    links := (parentDecision cfg.publicMode req fresh).2
    attrs := finalAttrs cfg req act }

/-- Modelled from the spec: one request through the tracing middleware
(middleware source absent from the repository snapshot; behavior follows the
spec and the SDK integration tests). A request rejected by the FilterChain
runs the handler untouched with no span and no headers. A traced request
records exactly the traced span and, when header injection is requested,
writes the trace-id header (lowercase hex) and the sampled header
(literal true/false) under the configured names. The fresh parameter is
the trace identifier the provider's generator would assign to a new root;
rootSampled is its sampling decision for a root span. -/
def runMiddleware (cfg : Config) (fresh : Nat) (rootSampled : Bool)
    (handler : Request → HandlerAction) (req : Request) : MwResult :=
  let act := handler req
  if shouldTrace cfg.filters req then
    let span := tracedSpan cfg fresh rootSampled act req
    let hdrs :=
      if cfg.injectHeaders then
        [(cfg.traceIDHeader, renderTraceID span.traceID),
         (cfg.sampledHeader, if span.sampled then "true" else "false")]
      else []
    { spans := [span]
      startedSpans := 1
      headers := hdrs
      handlerRan := true
      responseEvents := act.events }
  else
    { spans := []
      startedSpans := 0
      headers := []
      handlerRan := true
      responseEvents := act.events }

end Otelchi

namespace Otelchi.Metric

/-- An abstract Int64UpDownCounter instrument handle. -/
structure Counter where
  name : String
deriving DecidableEq

/-- The operations the in-flight wrapper performs on one request, in order:
counter adds and the invocation of the wrapped handler. -/
inductive MetricOp where
  | add (delta : Int)
  | serveNext
deriving DecidableEq

/-- How the wrapped handler finishes: a normal return or a propagating panic. -/
inductive HandlerOutcome where
  | completes
  | panics
deriving DecidableEq

/-- Embeds the per-request wrapper returned by NewRequestInFlight: it calls
counter.Add with +1, runs the next handler, then calls counter.Add with -1 in
straight-line code. The decrement is not deferred, so when the handler panics
execution unwinds right after the handler call and the decrement never runs. -/
def inFlightOps (outcome : HandlerOutcome) : List MetricOp :=
  [MetricOp.add 1, MetricOp.serveNext] ++
    (match outcome with
     | .completes => [MetricOp.add (-1)]
     | .panics => [])

/-- Counter value after executing a list of metric operations. -/
def counterAfter (start : Int) (ops : List MetricOp) : Int :=
  ops.foldl
    (fun c op =>
      match op with
      | .add d => c + d
      | .serveNext => c)
    start

/-- Embeds NewRequestInFlight construction: creating the up/down counter from
the meter may fail; on failure the Go constructor panics immediately with the
formatted message (modelled as an error result carrying that message), so no
middleware is returned; on success it returns the per-request wrapper. -/
def NewRequestInFlight (counterRes : Except String Counter) :
    Except String (HandlerOutcome → List MetricOp) :=
  match counterRes with
  | .error e =>
      .error ("unable to create requests_inflight counter: " ++ e)
  | .ok _ => .ok inFlightOps

end Otelchi.Metric

namespace Otelchi

theorem shouldTrace_eq_all (fs : List Filter) (r : Request) :
    shouldTrace fs r = fs.all (fun f => f r) := by
  induction fs with
  | nil => rfl
  | cons f fs ih =>
      by_cases h : f r = true
      · simp [shouldTrace, h, ih]
      · simp at h
        simp [shouldTrace, h]

theorem rrw_no_write (es : List WriterEvent) (s : RRWState)
    (h : hasWriteEvent es = false) :
    (es.foldl stepRRW s).written = s.written ∧
    (es.foldl stepRRW s).status = s.status ∧
    (es.foldl stepRRW s).hijacked = (s.hijacked || hasHijack es) := by
  induction es generalizing s with
  | nil => simp [hasHijack]
  | cons e es ih =>
      cases e with
      | writeHeader code => simp [hasWriteEvent] at h
      | write b => simp [hasWriteEvent] at h
      | hijack =>
          have h2 : hasWriteEvent es = false := by
            simpa [hasWriteEvent] using h
          have := ih { s with hijacked := true } h2
          simpa [stepRRW, hasHijack, List.any_cons] using this

theorem rrw_written_stable (es : List WriterEvent) (s : RRWState)
    (h : s.written = true) :
    (es.foldl stepRRW s).written = true ∧
    (es.foldl stepRRW s).status = s.status := by
  induction es generalizing s with
  | nil => exact ⟨h, rfl⟩
  | cons e es ih =>
      cases e with
      | writeHeader code => simpa [stepRRW, h] using ih s h
      | write b => simpa [stepRRW, h] using ih s h
      | hijack => simpa [stepRRW] using ih { s with hijacked := true } h

theorem runMiddleware_traced (cfg : Config) (fresh : Nat) (rootSampled : Bool)
    (handler : Request → HandlerAction) (req : Request)
    (htr : shouldTrace cfg.filters req = true) :
    runMiddleware cfg fresh rootSampled handler req =
      { spans := [tracedSpan cfg fresh rootSampled (handler req) req]
        startedSpans := 1
        headers :=
          if cfg.injectHeaders then
            [(cfg.traceIDHeader,
              renderTraceID (tracedSpan cfg fresh rootSampled (handler req) req).traceID),
             (cfg.sampledHeader,
              if (tracedSpan cfg fresh rootSampled (handler req) req).sampled then "true"
              else "false")]
          else []
        handlerRan := true
        responseEvents := (handler req).events } := by
  simp [runMiddleware, htr]

theorem hexDigitChar_lowerHex : ∀ k < 16, isLowerHexDigit (hexDigitChar k) = true := by
  decide

theorem hexChars_length (w n : Nat) : (hexChars w n).length = w := by
  induction w generalizing n with
  | zero => rfl
  | succ w ih => simp [hexChars, ih]

theorem hexChars_lowerHex (w n : Nat) :
    ∀ c ∈ hexChars w n, isLowerHexDigit c = true := by
  induction w generalizing n with
  | zero => intro c hc; simp [hexChars] at hc
  | succ w ih =>
      intro c hc
      simp only [hexChars, List.mem_append, List.mem_singleton] at hc
      rcases hc with hc | hc
      · exact ih _ _ hc
      · subst hc
        exact hexDigitChar_lowerHex (n % 16) (Nat.mod_lt _ (by decide))

end Otelchi

namespace Otelchi.Metric

/-- C4 counterexample: when the wrapped handler panics, the straight-line
wrapper from NewRequestInFlight never reaches the decrement — no add of -1
appears among the executed operations and the in-flight counter stays at 1
instead of returning to 0, refuting the guaranteed-release part of the
claim. -/
theorem inflight_panic_skips_decrement :
    MetricOp.add (-1) ∉ inFlightOps HandlerOutcome.panics ∧
    counterAfter 0 (inFlightOps HandlerOutcome.panics) = 1 := by
  decide

/-- C4 (amended): the in-flight counter is incremented by 1 immediately before
the wrapped handler is invoked and decremented by 1 after it completes
normally, independently of any filter or tracing decision (the wrapper always
runs the handler); but when the handler panics, the decrement is skipped
because the add of -1 is not deferred, leaving the counter one higher than it
started. -/
theorem inflight_counter_amended (c : Int) (o : HandlerOutcome) :
    inFlightOps o =
      MetricOp.add 1 :: MetricOp.serveNext ::
        (match o with
         | .completes => [MetricOp.add (-1)]
         | .panics => []) ∧
    counterAfter c (inFlightOps o) =
      (match o with
       | .completes => c
       | .panics => c + 1) ∧
    MetricOp.serveNext ∈ inFlightOps o := by
  cases o <;> refine ⟨rfl, ?_, by simp [inFlightOps]⟩ <;>
    simp [inFlightOps, counterAfter]

/-- C9: if creating the in-flight counter instrument fails, NewRequestInFlight
fails right at construction with the formatted message and returns no usable
middleware; if creation succeeds, construction succeeds and the returned
per-request wrapper is the fixed instrument-independent one, so nothing about
the instrument can fail later — in particular the result is usable exactly
when counter creation succeeded. -/
theorem new_request_inflight_construction :
    (∀ e, NewRequestInFlight (Except.error e) =
        Except.error ("unable to create requests_inflight counter: " ++ e)) ∧
    (∀ c, NewRequestInFlight (Except.ok c) = Except.ok inFlightOps) ∧
    (∀ r, (NewRequestInFlight r).isOk = r.isOk) := by
  refine ⟨fun e => rfl, fun c => rfl, fun r => ?_⟩
  cases r <;> rfl

end Otelchi.Metric

namespace Otelchi

/-- C1: the FilterChain decision equals the logical AND of all registered
filters; it is the registration-order short-circuit recursion, and the empty
chain traces everything; and a request the chain rejects produces no started
and no recorded span while the wrapped handler still executes and its
response passes through unchanged. -/
theorem filter_chain_decision (fs : List Filter) (cfg : Config)
    (fresh : Nat) (rootSampled : Bool) (handler : Request → HandlerAction)
    (req : Request) (hrej : shouldTrace cfg.filters req = false) :
    shouldTrace fs req = fs.all (fun f => f req) ∧
    shouldTrace [] req = true ∧
    (∀ f fs2, shouldTrace (f :: fs2) req =
      if f req then shouldTrace fs2 req else false) ∧
    (runMiddleware cfg fresh rootSampled handler req).spans = [] ∧
    (runMiddleware cfg fresh rootSampled handler req).startedSpans = 0 ∧
    (runMiddleware cfg fresh rootSampled handler req).handlerRan = true ∧
    (runMiddleware cfg fresh rootSampled handler req).responseEvents =
      (handler req).events := by
  refine ⟨shouldTrace_eq_all fs req, rfl, fun f fs2 => rfl, ?_, ?_, ?_, ?_⟩ <;>
    simp [runMiddleware, hrej]

def c1req : Request := { method := "GET", path := "/ready", remoteCtx := none }

def c1cfg : Config :=
  WithFilter (fun r => r.path != "/ready") (defaultConfig "foobar")

def c1handler : Request → HandlerAction :=
  fun _ => { events := [WriterEvent.writeHeader 200], rename := none }

/-- C1 witness: a filter rejecting the readiness path yields no span while the
handler still runs and its writes pass through. -/
theorem filter_chain_decision_witness :
    (runMiddleware c1cfg 7 true c1handler c1req).spans = [] ∧
    (runMiddleware c1cfg 7 true c1handler c1req).handlerRan = true ∧
    (runMiddleware c1cfg 7 true c1handler c1req).responseEvents =
      [WriterEvent.writeHeader 200] :=
  ⟨(filter_chain_decision [] c1cfg 7 true c1handler c1req (by decide)).2.2.2.1,
   (filter_chain_decision [] c1cfg 7 true c1handler c1req (by decide)).2.2.2.2.2.1,
   (filter_chain_decision [] c1cfg 7 true c1handler c1req (by decide)).2.2.2.2.2.2⟩

end Otelchi

namespace Otelchi

/-- C2: for a traced request carrying a valid remote span context, when
public-endpoint handling applies (mode always, or conditional with its
predicate true) the started span is a fresh root — its trace identifier is
the generator's fresh one, different from the remote trace identifier — and
it carries exactly one link referencing the remote context; when it does not
apply (mode off, or conditional with its predicate false) the remote context
is adopted as direct parent: the span's trace identifier equals the remote
one and it has zero links. -/
theorem public_endpoint_parenting (cfg : Config) (fresh : Nat)
    (rootSampled : Bool) (handler : Request → HandlerAction) (req : Request)
    (rc : SpanContext) (hrc : req.remoteCtx = some rc)
    (hvalid : isValid rc = true) (hfresh : fresh ≠ rc.traceID)
    (htr : shouldTrace cfg.filters req = true) :
    (resolvePublic cfg.publicMode req = true →
      ∃ s, (runMiddleware cfg fresh rootSampled handler req).spans = [s] ∧
        s.traceID = fresh ∧ s.traceID ≠ rc.traceID ∧ s.links = [rc]) ∧
    (resolvePublic cfg.publicMode req = false →
      ∃ s, (runMiddleware cfg fresh rootSampled handler req).spans = [s] ∧
        s.traceID = rc.traceID ∧ s.links = []) := by
  have hs := runMiddleware_traced cfg fresh rootSampled handler req htr
  constructor <;> intro hp <;>
    refine ⟨tracedSpan cfg fresh rootSampled (handler req) req, by rw [hs], ?_⟩ <;>
    simp [tracedSpan, parentDecision, hrc, hvalid, hp, hfresh]

def c2req : Request :=
  { method := "GET", path := "/with/public/endpoint",
    remoteCtx := some { traceID := 1, spanID := 1, sampled := false, remote := true } }

def c2cfg : Config := WithPublicEndpoint (defaultConfig "foobar")

def c2handler : Request → HandlerAction :=
  fun _ => { events := [], rename := none }

/-- C2 witness: with publicEndpointMode always and remote trace identifier 1,
a fresh root with trace identifier 7 is started carrying exactly the remote
context as its single link. -/
theorem public_endpoint_parenting_witness :
    ∃ s, (runMiddleware c2cfg 7 true c2handler c2req).spans = [s] ∧
      s.traceID = 7 ∧
      s.links = [{ traceID := 1, spanID := 1, sampled := false, remote := true }] := by
  obtain ⟨s, hs, h1, _, h2⟩ :=
    (public_endpoint_parenting c2cfg 7 true c2handler c2req
      { traceID := 1, spanID := 1, sampled := false, remote := true }
      rfl (by decide) (by decide) rfl).1 rfl
  exact ⟨s, hs, h1, h2⟩

/-- C3: the name of the ended span equals the resolved route pattern, or the
method-space-pattern form when methodInSpanName is enabled, unless the
handler explicitly renamed the span, in which case the explicit name is the
one recorded regardless of the naming configuration. -/
theorem span_name_resolution (cfg : Config) (fresh : Nat) (rootSampled : Bool)
    (handler : Request → HandlerAction) (req : Request)
    (htr : shouldTrace cfg.filters req = true) :
    ∃ s, (runMiddleware cfg fresh rootSampled handler req).spans = [s] ∧
      s.name =
        (match (handler req).rename with
         | some n => n
         | none =>
             if cfg.methodInSpanName then
               req.method ++ " " ++ resolvePattern cfg.routes req.path
             else resolvePattern cfg.routes req.path) ∧
      (∀ n, (handler req).rename = some n → s.name = n) := by
  have hs := runMiddleware_traced cfg fresh rootSampled handler req htr
  refine ⟨tracedSpan cfg fresh rootSampled (handler req) req, by rw [hs], rfl, ?_⟩
  intro n hn
  simp [tracedSpan, finalSpanName, hn]

def c3cfg : Config :=
  WithRequestMethodInSpanName true
    (WithChiRoutes [("/user/123", "/user/\x7bid:[0-9]+\x7d")] (defaultConfig "foobar"))

def c3req : Request := { method := "GET", path := "/user/123", remoteCtx := none }

def c3handler : Request → HandlerAction :=
  fun _ =>
    { events := [WriterEvent.writeHeader 200], rename := some "overriden span name" }

/-- C3 witness: a handler that renames the span wins over the configured
method-in-span-name naming. -/
theorem span_name_resolution_witness :
    ∃ s, (runMiddleware c3cfg 7 true c3handler c3req).spans = [s] ∧
      s.name = "overriden span name" := by
  obtain ⟨s, hs, _, hwin⟩ := span_name_resolution c3cfg 7 true c3handler c3req rfl
  exact ⟨s, hs, hwin _ rfl⟩

/-- C5: a traced request whose handler performs no writer interaction at all
(the framework default write behavior applies, since nothing was hijacked)
yields an ended span carrying the attribute http.status_code = 200. -/
theorem empty_handler_default_status (cfg : Config) (fresh : Nat)
    (rootSampled : Bool) (handler : Request → HandlerAction) (req : Request)
    (htr : shouldTrace cfg.filters req = true)
    (hnoop : (handler req).events = []) :
    ∃ s, (runMiddleware cfg fresh rootSampled handler req).spans = [s] ∧
      ("http.status_code", AttrValue.int 200) ∈ s.attrs := by
  have hs := runMiddleware_traced cfg fresh rootSampled handler req htr
  refine ⟨tracedSpan cfg fresh rootSampled (handler req) req, by rw [hs], ?_⟩
  simp [tracedSpan, finalAttrs, hnoop, observeEvents, initRRW, observedStatus]

def c5cfg : Config :=
  WithChiRoutes [("/user/123", "/user/\x7bid\x7d")] (defaultConfig "foobar")

def c5req : Request := { method := "GET", path := "/user/123", remoteCtx := none }

def c5handler : Request → HandlerAction :=
  fun _ => { events := [], rename := none }

/-- C5 witness: GET on the /user/123 path served by a no-op handler yields a
span whose attributes contain http.status_code = 200. -/
theorem empty_handler_default_status_witness :
    ∃ s, (runMiddleware c5cfg 7 true c5handler c5req).spans = [s] ∧
      ("http.status_code", AttrValue.int 200) ∈ s.attrs :=
  empty_handler_default_status c5cfg 7 true c5handler c5req rfl rfl

end Otelchi

namespace Otelchi

def c6cfg : Config := defaultConfig "foobar"

def c6req : Request := { method := "GET", path := "/user/123", remoteCtx := none }

def c6handler : Request → HandlerAction :=
  fun _ => { events := [], rename := none }

/-- C6 counterexample: a traced request whose handler never sets a status and
never writes a body byte still gets http.status_code = 200 recorded on the
ended span — the attribute is not omitted, refuting the claim as stated. -/
theorem status_never_omitted_counterexample :
    hasWriteEvent (c6handler c6req).events = false ∧
    (runMiddleware c6cfg 7 true c6handler c6req).spans.map Span.attrs =
      [[("net.host.name", AttrValue.str "foobar"),
        ("http.method", AttrValue.str "GET"),
        ("http.route", AttrValue.str "/user/123"),
        ("http.status_code", AttrValue.int 200)]] := by
  decide

/-- C6 (amended): for a traced request whose handler performs no explicit
status or body write through the framework writer, the http.status_code
attribute is omitted exactly when the handler hijacked the connection (no
response produced through the framework's writer, as in the websocket
upgrade); without a hijack the default applies and http.status_code = 200 is
recorded. -/
theorem status_omitted_iff_hijacked (cfg : Config) (fresh : Nat)
    (rootSampled : Bool) (handler : Request → HandlerAction) (req : Request)
    (htr : shouldTrace cfg.filters req = true)
    (hnw : hasWriteEvent (handler req).events = false) :
    ∃ s, (runMiddleware cfg fresh rootSampled handler req).spans = [s] ∧
      (hasHijack (handler req).events = true →
        ∀ v, ("http.status_code", v) ∉ s.attrs) ∧
      (hasHijack (handler req).events = false →
        ("http.status_code", AttrValue.int 200) ∈ s.attrs) := by
  have hs := runMiddleware_traced cfg fresh rootSampled handler req htr
  have hchar := rrw_no_write (handler req).events initRRW hnw
  refine ⟨tracedSpan cfg fresh rootSampled (handler req) req, by rw [hs], ?_, ?_⟩
  · intro hh v
    have h1 := hchar.1
    have h3 := hchar.2.2
    simp only [initRRW] at h1 h3
    simp at h3
    have hobs : observedStatus (observeEvents (handler req).events) = none := by
      simp [observedStatus, observeEvents, initRRW, h1, h3, hh]
    simp [tracedSpan, finalAttrs, hobs]
  · intro hh
    have h1 := hchar.1
    have h2 := hchar.2.1
    have h3 := hchar.2.2
    simp only [initRRW] at h1 h2 h3
    simp at h3
    have hobs : observedStatus (observeEvents (handler req).events) = some 200 := by
      simp [observedStatus, observeEvents, initRRW, h1, h2, h3, hh]
    simp [tracedSpan, finalAttrs, hobs]

def c6wsreq : Request := { method := "GET", path := "/ws", remoteCtx := none }

def c6wshandler : Request → HandlerAction :=
  fun _ => { events := [WriterEvent.hijack], rename := none }

/-- C6 witness: a websocket-style handler that only hijacks the connection
yields a span with no status attribute at all. -/
theorem status_omitted_iff_hijacked_witness :
    ∃ s, (runMiddleware c6cfg 7 true c6wshandler c6wsreq).spans = [s] ∧
      ∀ v, ("http.status_code", v) ∉ s.attrs := by
  obtain ⟨s, hs, homit, _⟩ :=
    status_omitted_iff_hijacked c6cfg 7 true c6wshandler c6wsreq rfl rfl
  exact ⟨s, hs, homit rfl⟩

/-- C7: when no route registration matches the request path the RouteResolver
returns the literal path as the pattern, non-fatally; a traced request for
such a path whose handler begins by writing status 404 (the not-found
handler) yields an ended span with http.route equal to the raw path and
http.status_code = 404. -/
theorem route_fallback_not_found (cfg : Config) (fresh : Nat)
    (rootSampled : Bool) (handler : Request → HandlerAction) (req : Request)
    (htr : shouldTrace cfg.filters req = true)
    (hmiss : cfg.routes.lookup req.path = none)
    (h404 : ∃ rest, (handler req).events = WriterEvent.writeHeader 404 :: rest) :
    resolvePattern cfg.routes req.path = req.path ∧
    ∃ s, (runMiddleware cfg fresh rootSampled handler req).spans = [s] ∧
      ("http.route", AttrValue.str req.path) ∈ s.attrs ∧
      ("http.status_code", AttrValue.int 404) ∈ s.attrs := by
  have hpat : resolvePattern cfg.routes req.path = req.path := by
    simp [resolvePattern, hmiss]
  have hs := runMiddleware_traced cfg fresh rootSampled handler req htr
  obtain ⟨rest, hev⟩ := h404
  have hstable := rrw_written_stable rest
    { written := true, status := 404, hijacked := false } rfl
  have hst : observedStatus (observeEvents (handler req).events) = some 404 := by
    simp [observeEvents, hev, stepRRW, initRRW, observedStatus,
      hstable.1, hstable.2]
  refine ⟨hpat, tracedSpan cfg fresh rootSampled (handler req) req,
    by rw [hs], ?_, ?_⟩ <;>
    simp [tracedSpan, finalAttrs, hst, hpat]

def c7cfg : Config := defaultConfig "foobar"

def c7req : Request := { method := "GET", path := "/not-found", remoteCtx := none }

def c7handler : Request → HandlerAction :=
  fun _ => { events := [WriterEvent.writeHeader 404, WriterEvent.write 19],
             rename := none }

/-- C7 witness: a GET of the unregistered path /not-found served by the
not-found handler yields http.route = /not-found and http.status_code 404. -/
theorem route_fallback_not_found_witness :
    resolvePattern c7cfg.routes c7req.path = "/not-found" ∧
    ∃ s, (runMiddleware c7cfg 7 true c7handler c7req).spans = [s] ∧
      ("http.route", AttrValue.str "/not-found") ∈ s.attrs ∧
      ("http.status_code", AttrValue.int 404) ∈ s.attrs := by
  exact route_fallback_not_found c7cfg 7 true c7handler c7req rfl rfl
    ⟨[WriterEvent.write 19], rfl⟩

/-- C8: with header injection enabled via WithTraceResponseHeaders, the
trace-id response header value is the span's trace identifier rendered as 32
lowercase hex characters and the sampled header value is the literal string
true or false per the span context's sampled flag, written under the
configured names with empty config fields falling back to the defaults. -/
theorem trace_response_headers (cfg0 : Config) (tc : TraceHeaderConfig)
    (fresh : Nat) (rootSampled : Bool) (handler : Request → HandlerAction)
    (req : Request)
    (htr : shouldTrace (WithTraceResponseHeaders tc cfg0).filters req = true) :
    ∃ s,
      (runMiddleware (WithTraceResponseHeaders tc cfg0) fresh rootSampled
        handler req).spans = [s] ∧
      (runMiddleware (WithTraceResponseHeaders tc cfg0) fresh rootSampled
        handler req).headers =
        [((if tc.traceIDHeader = "" then defaultTraceIDHeaderName
           else tc.traceIDHeader),
          renderTraceID s.traceID),
         ((if tc.traceSampledHeader = "" then defaultSampledHeaderName
           else tc.traceSampledHeader),
          if s.sampled then "true" else "false")] ∧
      (renderTraceID s.traceID).length = 32 ∧
      (∀ c ∈ (renderTraceID s.traceID).data, isLowerHexDigit c = true) := by
  have hs := runMiddleware_traced (WithTraceResponseHeaders tc cfg0) fresh
    rootSampled handler req htr
  refine ⟨tracedSpan (WithTraceResponseHeaders tc cfg0) fresh rootSampled
    (handler req) req, by rw [hs], ?_, ?_, ?_⟩
  · rw [hs]
    simp [WithTraceResponseHeaders]
  · simp [renderTraceID, String.length, hexChars_length]
  · intro c hc
    exact hexChars_lowerHex 32 _ c (by simpa [renderTraceID] using hc)

def c8cfg : Config := defaultConfig "foobar"

/-- C8 witness: an all-default header config falls back to both default
header names and renders the trace identifier of the adopted remote parent. -/
theorem trace_response_headers_witness :
    ∃ s,
      (runMiddleware
        (WithTraceResponseHeaders { traceIDHeader := "", traceSampledHeader := "" } c8cfg)
        7 true c1handler
        { method := "GET", path := "/user/123",
          remoteCtx := some { traceID := 1, spanID := 1, sampled := true, remote := true } }).spans = [s] ∧
      (runMiddleware
        (WithTraceResponseHeaders { traceIDHeader := "", traceSampledHeader := "" } c8cfg)
        7 true c1handler
        { method := "GET", path := "/user/123",
          remoteCtx := some { traceID := 1, spanID := 1, sampled := true, remote := true } }).headers =
        [(defaultTraceIDHeaderName, renderTraceID s.traceID),
         (defaultSampledHeaderName, if s.sampled then "true" else "false")] := by
  obtain ⟨s, hs, hh, _, _⟩ :=
    trace_response_headers c8cfg { traceIDHeader := "", traceSampledHeader := "" }
      7 true c1handler
      { method := "GET", path := "/user/123",
        remoteCtx := some { traceID := 1, spanID := 1, sampled := true, remote := true } }
      rfl
  exact ⟨s, hs, by simpa using hh⟩

/-- C10: serving with WithTraceIDResponseHeader configured with a custom
name-producing function customizes only the trace-id header name: the sampled
response header is still emitted, under the library's default sampled header
name, with the literal true/false value per the span context's sampled
flag. -/
theorem custom_traceid_header_keeps_sampled (sname : String) (f : Unit → String)
    (fresh : Nat) (rootSampled : Bool) (handler : Request → HandlerAction)
    (req : Request) :
    ∃ s,
      (runMiddleware (Middleware sname [WithTraceIDResponseHeader (some f)])
        fresh rootSampled handler req).spans = [s] ∧
      (runMiddleware (Middleware sname [WithTraceIDResponseHeader (some f)])
        fresh rootSampled handler req).headers =
        [(f (), renderTraceID s.traceID),
         (defaultSampledHeaderName, if s.sampled then "true" else "false")] := by
  have htr : shouldTrace
      (Middleware sname [WithTraceIDResponseHeader (some f)]).filters req = true := rfl
  have hs := runMiddleware_traced (Middleware sname [WithTraceIDResponseHeader (some f)])
    fresh rootSampled handler req htr
  refine ⟨tracedSpan (Middleware sname [WithTraceIDResponseHeader (some f)])
    fresh rootSampled (handler req) req, by rw [hs], ?_⟩
  rw [hs]
  simp [Middleware, applyOptions, WithTraceIDResponseHeader, defaultConfig]

end Otelchi
